import Mathlib

/-!
Verification development for the asynchronous digital-wait contract of the
`embedded-hal` futures module (`src/futures/digital.rs`, `src/futures/mod.rs`).

The repository declares five Rust traits — `WaitForHigh`, `WaitForLow`,
`WaitForRisingEdge`, `WaitForFallingEdge`, `WaitForAnyEdge` — each exposing one
wait operation that takes `&'a mut self` and returns an associated future type
bounded by `'a` whose output is `Result<(), Self::Error>`.  The crate contains
no executable implementation of the waits: the behavior is fixed by the
documented contract.  We therefore embed two layers:

1. the trait and module declarations themselves, as data translated from the
   source, so that structural claims (signatures, error types, module list)
   are facts about concrete Lean values;
2. a reference operational model of the documented wait semantics over sampled
   pin traces, marked `Modelled from the spec:`, against which the behavioral
   claims (race safety, immediate completion, edge semantics, cancellation,
   state machine) are settled.
-/

namespace EHal

/-- The mutability and lifetime of a Rust method's `self` receiver, as written
in the source signature. -/
inductive SelfReceiver where
  | sharedRef (lifetime : String)
  | mutRef (lifetime : String)
  | byValue
deriving DecidableEq

/-- A Rust type expression, restricted to the shapes occurring in the future
output types of `src/futures/digital.rs`. -/
inductive RustTy where
  | unit
  | selfAssoc (name : String)
  | result (ok err : RustTy)
deriving DecidableEq

/-- One wait trait declared in `src/futures/digital.rs`: its name, supertrait
bounds, the name of its associated error type, the name and lifetime of its
associated future type, the future's declared output type, the wait method's
name, and the method's `self` receiver. -/
structure WaitTrait where
  name : String
  superTraits : List String
  errorAssoc : String
  futureAssoc : String
  futureLifetime : String
  futureOutput : RustTy
  methodName : String
  receiver : SelfReceiver
deriving DecidableEq

/-- `pub trait WaitForHigh` from `src/futures/digital.rs`: associated `Error`,
associated `WaitForHighFuture<'a>: Future<Output = Result<(), Self::Error>> + 'a`,
and `fn wait_for_high<'a>(&'a mut self) -> Self::WaitForHighFuture<'a>`. -/
def WaitForHigh : WaitTrait :=
  { name := "WaitForHigh"
    superTraits := []
    errorAssoc := "Error"
    futureAssoc := "WaitForHighFuture"
    futureLifetime := "'a"
    futureOutput := RustTy.result RustTy.unit (RustTy.selfAssoc "Error")
    methodName := "wait_for_high"
    receiver := SelfReceiver.mutRef "'a" }

/-- `pub trait WaitForLow` from `src/futures/digital.rs`. -/
def WaitForLow : WaitTrait :=
  { name := "WaitForLow"
    superTraits := []
    errorAssoc := "Error"
    futureAssoc := "WaitForLowFuture"
    futureLifetime := "'a"
    futureOutput := RustTy.result RustTy.unit (RustTy.selfAssoc "Error")
    methodName := "wait_for_low"
    receiver := SelfReceiver.mutRef "'a" }

/-- `pub trait WaitForRisingEdge` from `src/futures/digital.rs`. -/
def WaitForRisingEdge : WaitTrait :=
  { name := "WaitForRisingEdge"
    superTraits := []
    errorAssoc := "Error"
    futureAssoc := "WaitForRisingEdgeFuture"
    futureLifetime := "'a"
    futureOutput := RustTy.result RustTy.unit (RustTy.selfAssoc "Error")
    methodName := "wait_for_rising_edge"
    receiver := SelfReceiver.mutRef "'a" }

/-- `pub trait WaitForFallingEdge` from `src/futures/digital.rs`. -/
def WaitForFallingEdge : WaitTrait :=
  { name := "WaitForFallingEdge"
    superTraits := []
    errorAssoc := "Error"
    futureAssoc := "WaitForFallingEdgeFuture"
    futureLifetime := "'a"
    futureOutput := RustTy.result RustTy.unit (RustTy.selfAssoc "Error")
    methodName := "wait_for_falling_edge"
    receiver := SelfReceiver.mutRef "'a" }

/-- `pub trait WaitForAnyEdge` from `src/futures/digital.rs`. -/
def WaitForAnyEdge : WaitTrait :=
  { name := "WaitForAnyEdge"
    superTraits := []
    errorAssoc := "Error"
    futureAssoc := "WaitForAnyEdgeFuture"
    futureLifetime := "'a"
    futureOutput := RustTy.result RustTy.unit (RustTy.selfAssoc "Error")
    methodName := "wait_for_any_edge"
    receiver := SelfReceiver.mutRef "'a" }

/-- The five wait traits of `src/futures/digital.rs`, in source order. -/
def digitalTraits : List WaitTrait :=
  [WaitForHigh, WaitForLow, WaitForRisingEdge, WaitForFallingEdge, WaitForAnyEdge]

/-- The submodules declared by `src/futures/mod.rs`, in source order
(`pub mod i2c; pub mod rng; pub mod serial; pub mod spi; pub mod timer;`). -/
def futuresModules : List String := ["i2c", "rng", "serial", "spi", "timer"]

/-- The module path used by the doc example at the top of
`src/futures/digital.rs` (`use embedded_hal::futures::digital::AsyncInputPin;`),
segment by segment. -/
def digitalDocExamplePath : List String :=
  ["embedded_hal", "futures", "digital", "AsyncInputPin"]

/-- A Rust mutable borrow of a place across a half-open interval of program
points, modelling the exclusive borrow `&'a mut self` taken by each wait
method for the lifetime `'a` of the returned future. -/
structure MutBorrow where
  place : Nat
  start : Nat
  stop : Nat
deriving DecidableEq

/-- Two borrow extents overlap when neither interval ends before the other
begins. -/
def MutBorrow.overlaps (a b : MutBorrow) : Bool :=
  decide (a.start < b.stop) && decide (b.start < a.stop)

/-- Rust's exclusivity rule: the borrow checker accepts two mutable borrows
only when they are of different places or their extents do not overlap. -/
def borrowCheckAccepts (a b : MutBorrow) : Bool :=
  !(decide (a.place = b.place) && a.overlaps b)

/-- Modelled from the spec: one backend observation of the pin — either a
backend sensing failure or the pin's logical level.  The repository declares
only the trait interface; the wait behavior is modelled from the documented
contract in `src/futures/digital.rs` and the spec. -/
abbrev Sample (ε : Type) := Except ε Bool

/-- Modelled from the spec: the level-wait semantics shared by `wait_for_high`
(`want = true`) and `wait_for_low` (`want = false`).  The computation observes
the pin sample by sample: it resolves with success at the first sample at the
requested level, resolves with the backend's error on a failed read, and while
the condition is unmet it stays pending (`none`), which models continued
suspension.  Resolution is decided at detection time; samples after detection
never participate. -/
def levelWait {ε : Type} (want : Bool) : List (Sample ε) → Option (Except ε Unit)
  | [] => none
  | Except.error e :: _ => some (Except.error e)
  | Except.ok l :: rest =>
      if l = want then some (Except.ok ()) else levelWait want rest

/-- Modelled from the spec: `wait_for_high` resolves when the pin is high. -/
def wait_for_high {ε : Type} : List (Sample ε) → Option (Except ε Unit) :=
  levelWait true

/-- Modelled from the spec: `wait_for_low` resolves when the pin is low. -/
def wait_for_low {ε : Type} : List (Sample ε) → Option (Except ε Unit) :=
  levelWait false

/-- Modelled from the spec: the index of the sample at which a level wait
resolves.  Index `0` means the wait resolves at the very first observation,
before any intervening suspension. -/
def levelWaitSteps {ε : Type} (want : Bool) : List (Sample ε) → Option Nat
  | [] => none
  | Except.error _ :: _ => some 0
  | Except.ok l :: rest =>
      if l = want then some 0 else (levelWaitSteps want rest).map Nat.succ

/-- A rising edge: the previous level was low and the current level is high. -/
def risingEdge (prev cur : Bool) : Bool := !prev && cur

/-- A falling edge: the previous level was high and the current level is low. -/
def fallingEdge (prev cur : Bool) : Bool := prev && !cur

/-- Any edge: the level changed between consecutive observations. -/
def anyEdge (prev cur : Bool) : Bool := prev != cur

/-- Modelled from the spec: the edge-wait semantics shared by
`wait_for_rising_edge`, `wait_for_falling_edge` and `wait_for_any_edge`.
Detection is armed with the level observed at invocation time (`prev`); the
computation resolves with success only when a qualifying transition occurs
between consecutive observations, resolves with the backend's error on a
failed read, and otherwise stays pending.  A static level matching the
post-transition value does not qualify: only a transition does. -/
def edgeWait {ε : Type} (q : Bool → Bool → Bool) :
    Bool → List (Sample ε) → Option (Except ε Unit)
  | _, [] => none
  | _, Except.error e :: _ => some (Except.error e)
  | prev, Except.ok l :: rest =>
      if q prev l then some (Except.ok ()) else edgeWait q l rest

/-- Modelled from the spec: `wait_for_rising_edge` resolves on a low-to-high
transition after registration. -/
def wait_for_rising_edge {ε : Type} : Bool → List (Sample ε) → Option (Except ε Unit) :=
  edgeWait risingEdge

/-- Modelled from the spec: `wait_for_falling_edge` resolves on a high-to-low
transition after registration. -/
def wait_for_falling_edge {ε : Type} : Bool → List (Sample ε) → Option (Except ε Unit) :=
  edgeWait fallingEdge

/-- Modelled from the spec: `wait_for_any_edge` resolves on either transition,
whichever occurs first after registration. -/
def wait_for_any_edge {ε : Type} : Bool → List (Sample ε) → Option (Except ε Unit) :=
  edgeWait anyEdge

/-- The condition a wait instance arms detection for: one per wait operation. -/
inductive WaitCond where
  | high
  | low
  | rising
  | falling
  | eitherEdge
deriving DecidableEq

/-- Modelled from the spec: the backend-visible detection state carried by a
pin handle — the repository's interface leaves this to implementations, the
spec requires it to be armed by an invocation and released by abandonment. -/
structure HandleState where
  armedCond : Option WaitCond
deriving DecidableEq

/-- Modelled from the spec: invoking a wait operation on a handle arms
detection for the requested condition; a handle that already has an
outstanding wait armed cannot accept a second one (`none` = pin busy). -/
def invokeWait (c : WaitCond) (h : HandleState) : Option HandleState :=
  match h.armedCond with
  | some _ => none
  | none => some { armedCond := some c }

/-- Modelled from the spec (§4.3 of the documented contract): abandoning a
suspended wait releases the armed detection state on the handle and delivers
no outcome — the computation simply never resolves. -/
def abandonWait (ε : Type) (h : HandleState) : HandleState × Option (Except ε Unit) :=
  ({ h with armedCond := none }, none)

/-- The states of one wait-computation instance named by the documented
contract's state model. -/
inductive WaitState where
  | armed
  | satisfied
  | failed
  | resolved
  | abandoned
deriving DecidableEq

/-- Modelled from the spec: the transition relation of one wait instance.
From `armed`, detection may observe the condition (`satisfied`) or a backend
error (`failed`); the caller consumes the pending outcome exactly once
(`resolved`); abandonment is possible while the outcome has not been consumed,
from `armed` or `satisfied`. -/
inductive WaitStep : WaitState → WaitState → Prop where
  | satisfy : WaitStep WaitState.armed WaitState.satisfied
  | fail : WaitStep WaitState.armed WaitState.failed
  | resolveOk : WaitStep WaitState.satisfied WaitState.resolved
  | resolveErr : WaitStep WaitState.failed WaitState.resolved
  | abandonArmed : WaitStep WaitState.armed WaitState.abandoned
  | abandonSatisfied : WaitStep WaitState.satisfied WaitState.abandoned

/-- A level wait that has resolved on the samples seen so far keeps exactly
that outcome however the trace continues: resolution is decided at detection
time. -/
theorem levelWait_append {ε : Type} (want : Bool) (s more : List (Sample ε))
    (r : Except ε Unit) (h : levelWait want s = some r) :
    levelWait want (s ++ more) = some r := by
  induction s with
  | nil => simp [levelWait] at h
  | cons x rest ih =>
    cases x with
    | error e => simpa [levelWait] using h
    | ok l =>
      by_cases hl : l = want
      · simpa [levelWait, hl] using h
      · simp only [List.cons_append, levelWait, hl, if_false] at h ⊢
        exact ih h

/-- A level wait resolves with an error only when the trace contains a backend
failure sample carrying that error. -/
theorem levelWait_error_mem {ε : Type} (want : Bool) (s : List (Sample ε)) (e : ε)
    (h : levelWait want s = some (Except.error e)) : Except.error e ∈ s := by
  induction s with
  | nil => simp [levelWait] at h
  | cons x rest ih =>
    cases x with
    | error e2 =>
      simp [levelWait] at h
      subst h
      exact List.mem_cons_self _ _
    | ok l =>
      by_cases hl : l = want
      · simp [levelWait, hl] at h
      · simp only [levelWait, hl, if_false] at h
        exact List.mem_cons_of_mem _ (ih h)

/-- An edge wait resolves with an error only when the trace contains a backend
failure sample carrying that error. -/
theorem edgeWait_error_mem {ε : Type} (q : Bool → Bool → Bool) (p : Bool)
    (s : List (Sample ε)) (e : ε)
    (h : edgeWait q p s = some (Except.error e)) : Except.error e ∈ s := by
  induction s generalizing p with
  | nil => simp [edgeWait] at h
  | cons x rest ih =>
    cases x with
    | error e2 =>
      simp [edgeWait] at h
      subst h
      exact List.mem_cons_self _ _
    | ok l =>
      by_cases hq : q p l = true
      · simp [edgeWait, hq] at h
      · simp only [edgeWait, hq, if_false] at h
        exact List.mem_cons_of_mem _ (ih _ h)

/-- While the pin stays at the non-requested level a level wait stays pending:
an unmet condition is continued suspension, never an error. -/
theorem levelWait_unmet_pending {ε : Type} (want : Bool) (n : Nat) :
    levelWait (ε := ε) want (List.replicate n (Except.ok (!want))) = none := by
  induction n with
  | zero => rfl
  | succ k ih =>
    simp only [List.replicate_succ, levelWait]
    rw [if_neg]
    · exact ih
    · exact Bool.not_ne_self want

/-- An edge wait whose qualifying test rejects a constant level stays pending
on a constant trace of that level. -/
theorem edgeWait_const_pending {ε : Type} (q : Bool → Bool → Bool) (p : Bool)
    (hq : q p p = false) (n : Nat) :
    edgeWait (ε := ε) q p (List.replicate n (Except.ok p)) = none := by
  induction n with
  | zero => rfl
  | succ k ih =>
    simp only [List.replicate_succ, edgeWait]
    rw [if_neg]
    · exact ih
    · simp [hq]

/-- An edge wait skips over a constant prelude at the armed level and behaves
on the remainder of the trace as if armed there. -/
theorem edgeWait_replicate_append {ε : Type} (q : Bool → Bool → Bool) (p : Bool)
    (hq : q p p = false) (n : Nat) (rest : List (Sample ε)) :
    edgeWait q p (List.replicate n (Except.ok p) ++ rest) = edgeWait q p rest := by
  induction n with
  | zero => rfl
  | succ k ih =>
    simp only [List.replicate_succ, List.cons_append, edgeWait]
    rw [if_neg]
    · exact ih
    · simp [hq]

/-- If a directional edge wait resolves with success on a trace, the any-edge
wait resolves with success on the same trace, provided every qualifying
transition of the directional wait is a transition. -/
theorem edgeWait_ok_any {ε : Type} (q : Bool → Bool → Bool)
    (hq : ∀ a b, q a b = true → anyEdge a b = true)
    (p : Bool) (s : List (Sample ε))
    (h : edgeWait q p s = some (Except.ok ())) :
    edgeWait anyEdge p s = some (Except.ok ()) := by
  induction s generalizing p with
  | nil => simp [edgeWait] at h
  | cons x rest ih =>
    cases x with
    | error e => simp [edgeWait] at h
    | ok l =>
      by_cases ha : anyEdge p l = true
      · simp [edgeWait, ha]
      · have hql : ¬ (q p l = true) := fun hc => ha (hq p l hc)
        simp only [edgeWait, hql, if_false] at h
        simp only [edgeWait, ha, if_false]
        exact ih _ h

/-- Claim C1: Late-check race safety for the level waits: once `wait_for_high`
(resp. `wait_for_low`) has detected the requested level on the samples seen so
far, then even if the pin falls back to the non-requested level for the whole
interval before the caller is resumed, the computation still resolves with
success — it reports that the condition held at least once during the wait. -/
theorem c1_late_check_race_safety {ε : Type} (s : List (Sample ε)) (k : Nat) :
    (wait_for_high s = some (Except.ok ()) →
      wait_for_high (s ++ List.replicate k (Except.ok false)) = some (Except.ok ())) ∧
    (wait_for_low s = some (Except.ok ()) →
      wait_for_low (s ++ List.replicate k (Except.ok true)) = some (Except.ok ())) :=
  ⟨fun h => levelWait_append true s _ _ h, fun h => levelWait_append false s _ _ h⟩

/-- Witness for C1 at the documented example scenario: the pin starts low,
goes high (detection), then is low again for three polls before resumption;
the wait still resolves with success. -/
theorem c1_witness :
    wait_for_high (ε := Unit) [Except.ok false, Except.ok true] = some (Except.ok ()) ∧
    wait_for_high (ε := Unit)
      ([Except.ok false, Except.ok true] ++ List.replicate 3 (Except.ok false)) =
      some (Except.ok ()) :=
  ⟨rfl, (c1_late_check_race_safety [Except.ok false, Except.ok true] 3).1 rfl⟩

/-- Claim C2: Immediate completion for the level waits: if the pin is already
at the requested level at invocation time, the computation resolves with
success at the very first observation (step index 0), before any intervening
suspension and independently of any later hardware event. -/
theorem c2_immediate_completion {ε : Type} (rest : List (Sample ε)) :
    wait_for_high (Except.ok true :: rest) = some (Except.ok ()) ∧
    levelWaitSteps true (Except.ok true :: rest) = some 0 ∧
    wait_for_low (Except.ok false :: rest) = some (Except.ok ()) ∧
    levelWaitSteps false (Except.ok false :: rest) = some 0 :=
  ⟨rfl, rfl, rfl, rfl⟩

/-- Claim C3: No immediate-completion shortcut for the edge waits: with the
pin already high at invocation and remaining high throughout, the
`wait_for_rising_edge` computation never resolves, for a trace of any length
(symmetrically for `wait_for_falling_edge` on a constantly low pin); it does
resolve once an actual low-to-high transition occurs after registration. -/
theorem c3_no_edge_shortcut {ε : Type} (n : Nat) :
    wait_for_rising_edge (ε := ε) true (List.replicate n (Except.ok true)) = none ∧
    wait_for_falling_edge (ε := ε) false (List.replicate n (Except.ok false)) = none ∧
    wait_for_rising_edge (ε := ε) true
      (List.replicate n (Except.ok true) ++ [Except.ok false, Except.ok true]) =
      some (Except.ok ()) := by
  refine ⟨?_, ?_, ?_⟩
  · exact edgeWait_const_pending risingEdge true rfl n
  · exact edgeWait_const_pending fallingEdge false rfl n
  · exact (edgeWait_replicate_append risingEdge true rfl n _).trans rfl

/-- Claim C4: Any-edge symmetry: whenever a rising (resp. falling) transition
resolves the corresponding directional wait with success, `wait_for_any_edge`
on the same trace also resolves with success; a rising-only trace and a
falling-only trace produce identical payload-free success outcomes, and the
declared output type of `WaitForAnyEdge` carries a unit success payload. -/
theorem c4_any_edge_symmetry {ε : Type} (p : Bool) (s : List (Sample ε)) :
    (wait_for_rising_edge p s = some (Except.ok ()) →
      wait_for_any_edge p s = some (Except.ok ())) ∧
    (wait_for_falling_edge p s = some (Except.ok ()) →
      wait_for_any_edge p s = some (Except.ok ())) ∧
    wait_for_any_edge (ε := ε) false [Except.ok true] =
      wait_for_any_edge (ε := ε) true [Except.ok false] ∧
    wait_for_any_edge (ε := ε) false [Except.ok true] = some (Except.ok ()) ∧
    WaitForAnyEdge.futureOutput = RustTy.result RustTy.unit (RustTy.selfAssoc "Error") := by
  refine ⟨?_, ?_, rfl, rfl, rfl⟩
  · exact edgeWait_ok_any risingEdge (by decide) p s
  · exact edgeWait_ok_any fallingEdge (by decide) p s

/-- Witness for C4: a rising-only trace resolves the any-edge wait with the
payload-free success outcome. -/
theorem c4_witness :
    wait_for_any_edge (ε := Unit) false [Except.ok true] = some (Except.ok ()) :=
  (c4_any_edge_symmetry false [Except.ok true]).1 rfl

/-- Claim C5: Exclusive access per pin: every one of the five wait operations
takes an exclusive mutable borrow of the pin handle whose lifetime is exactly
the returned future's lifetime bound, so the suspended computation borrows the
handle for its entire lifetime; and two overlapping mutable borrows of one
place are rejected by the exclusivity rule, so a second concurrent wait on the
same handle is prevented rather than allowed to race. -/
theorem c5_exclusive_access :
    (digitalTraits.all fun t =>
      decide (t.receiver = SelfReceiver.mutRef t.futureLifetime) &&
      decide (t.futureLifetime = "'a")) = true ∧
    ∀ a b : MutBorrow, a.place = b.place → a.overlaps b = true →
      borrowCheckAccepts a b = false := by
  refine ⟨rfl, ?_⟩
  intro a b hp ho
  simp [borrowCheckAccepts, hp, ho]

/-- Witness for C5: two overlapping mutable borrows of the same handle are
rejected. -/
theorem c5_witness : borrowCheckAccepts ⟨0, 0, 2⟩ ⟨0, 1, 3⟩ = false :=
  c5_exclusive_access.2 ⟨0, 0, 2⟩ ⟨0, 1, 3⟩ rfl rfl

/-- Claim C6: Outcome shape and error policy: each of the five traits declares
its own associated `Error` type and a future whose output is
`Result<(), Self::Error>`; in the behavioral model an error outcome arises
only from a backend failure sample in the trace, an unmet condition yields
continued suspension (pending, never an error), and abandonment delivers no
outcome. -/
theorem c6_outcome_and_error_policy {ε : Type} :
    (digitalTraits.all fun t =>
      decide (t.futureOutput = RustTy.result RustTy.unit (RustTy.selfAssoc "Error")) &&
      decide (t.errorAssoc = "Error")) = true ∧
    (∀ (want : Bool) (s : List (Sample ε)) (e : ε),
      levelWait want s = some (Except.error e) → Except.error e ∈ s) ∧
    (∀ (q : Bool → Bool → Bool) (p : Bool) (s : List (Sample ε)) (e : ε),
      edgeWait q p s = some (Except.error e) → Except.error e ∈ s) ∧
    (∀ (want : Bool) (n : Nat),
      levelWait (ε := ε) want (List.replicate n (Except.ok (!want))) = none) ∧
    ∀ h : HandleState, (abandonWait ε h).2 = none :=
  ⟨rfl, fun want s e h => levelWait_error_mem want s e h,
    fun q p s e h => edgeWait_error_mem q p s e h,
    fun want n => levelWait_unmet_pending want n,
    fun _ => rfl⟩

/-- Witness for C6: a backend failure sample resolves the wait with exactly
that error, and the error indeed came from the trace. -/
theorem c6_witness :
    levelWait (ε := Nat) true [Except.error 7] = some (Except.error 7) ∧
    Except.error 7 ∈ [(Except.error 7 : Sample Nat)] :=
  ⟨rfl, (c6_outcome_and_error_policy (ε := Nat)).2.1 true [Except.error 7] 7 rfl⟩

/-- Claim C7: Clean abandonment: when a wait has been invoked on a handle
(arming it), abandoning the suspended computation releases the armed detection
state, delivers no outcome, and leaves the handle immediately available: a
fresh wait for any condition then succeeds, exactly as on a handle that never
held the abandoned wait. -/
theorem c7_clean_abandonment (ε : Type) (c c2 : WaitCond) (h h2 : HandleState)
    (_hinv : invokeWait c h = some h2) :
    (abandonWait ε h2).1.armedCond = none ∧
    (abandonWait ε h2).2 = none ∧
    invokeWait c2 (abandonWait ε h2).1 = some { armedCond := some c2 } ∧
    invokeWait c2 (abandonWait ε h2).1 = invokeWait c2 { armedCond := none } :=
  ⟨rfl, rfl, rfl, rfl⟩

/-- Witness for C7: arm a high-wait on a fresh handle, abandon it, and a
fresh low-wait on the same handle succeeds. -/
theorem c7_witness :
    invokeWait WaitCond.low (abandonWait Unit ⟨some WaitCond.high⟩).1 =
      some { armedCond := some WaitCond.low } :=
  (c7_clean_abandonment Unit WaitCond.high WaitCond.low ⟨none⟩ ⟨some WaitCond.high⟩
    rfl).2.2.1

/-- Claim C8: Wait-instance state machine: over the modelled transition
relation, no step leaves `resolved` (the outcome is consumed exactly once) or
`abandoned` (both terminal); abandonment occurs only from `armed` or
`satisfied`; `resolved` is reached only from `satisfied` or `failed`; from
`armed` the next state is `satisfied`, `failed` or `abandoned`; and no step
ever re-enters `armed`, so observing a second condition requires a new
invocation. -/
theorem c8_state_machine :
    (∀ s, ¬ WaitStep WaitState.resolved s) ∧
    (∀ s, ¬ WaitStep WaitState.abandoned s) ∧
    (∀ s, WaitStep s WaitState.abandoned →
      s = WaitState.armed ∨ s = WaitState.satisfied) ∧
    (∀ s, WaitStep s WaitState.resolved →
      s = WaitState.satisfied ∨ s = WaitState.failed) ∧
    (∀ s, WaitStep WaitState.armed s →
      s = WaitState.satisfied ∨ s = WaitState.failed ∨ s = WaitState.abandoned) ∧
    ∀ s t, WaitStep s t → t ≠ WaitState.armed := by
  refine ⟨?_, ?_, ?_, ?_, ?_, ?_⟩
  · intro s hs; cases hs
  · intro s hs; cases hs
  · intro s hs
    cases hs
    · exact Or.inl rfl
    · exact Or.inr rfl
  · intro s hs
    cases hs
    · exact Or.inl rfl
    · exact Or.inr rfl
  · intro s hs
    cases hs
    · exact Or.inl rfl
    · exact Or.inr (Or.inl rfl)
    · exact Or.inr (Or.inr rfl)
  · intro s t hst
    cases hst <;> decide

/-- Witness for C8: the abandonment step from `armed` indeed starts at
`armed` or `satisfied`. -/
theorem c8_witness :
    WaitState.armed = WaitState.armed ∨ WaitState.armed = WaitState.satisfied :=
  c8_state_machine.2.2.1 WaitState.armed WaitStep.abandonArmed

/-- Claim C9: the futures module of `src/futures/mod.rs` declares the sibling
peripheral modules `i2c`, `rng`, `serial`, `spi` and `timer`, but does not
declare `digital` — even though `src/futures/digital.rs` exists and its own
doc example imports through the path `embedded_hal::futures::digital`. -/
theorem c9_digital_not_declared :
    futuresModules = ["i2c", "rng", "serial", "spi", "timer"] ∧
    "digital" ∉ futuresModules ∧
    "digital" ∈ digitalDocExamplePath :=
  ⟨rfl, by decide, by decide⟩

/-- Claim C10: the five wait operations are five separate trait declarations
with pairwise distinct names, each declaring its own associated `Error` type
and its own pairwise-distinct future type, and none declaring any supertrait
bound — so nothing in the interface requires one implementation to provide
all five operations, nor to use one error type across them. -/
theorem c10_five_independent_traits :
    digitalTraits.map WaitTrait.name =
      ["WaitForHigh", "WaitForLow", "WaitForRisingEdge",
        "WaitForFallingEdge", "WaitForAnyEdge"] ∧
    (digitalTraits.map WaitTrait.name).Nodup ∧
    (digitalTraits.map WaitTrait.futureAssoc).Nodup ∧
    (digitalTraits.all fun t =>
      t.superTraits.isEmpty && decide (t.errorAssoc = "Error")) = true ∧
    digitalTraits.length = 5 :=
  ⟨rfl, by decide, by decide, rfl, rfl⟩

end EHal
